import Mathlib

/-!
Verification of the NavRadar real-time rendering and adaptive-density
pipeline against its natural-language specification.

The JavaScript source (src/src/App.jsx plus the prototype variants under
src/unnamed/) is shallowly embedded below.  JS numbers are modelled as ℚ
(the code only multiplies, divides, compares and clamps them); JS `null`
and `undefined` are modelled as `Option.none`; entity-record arrays from
the upstream feed are modelled as a structure whose fields are the
positionally-indexed slots actually read by the code.  Leaflet's
`LatLngBounds.contains` is modelled per its documented semantics:
inclusive containment in the south/west/north/east rectangle.
-/

/-- JS `v || null` applied to a nullable number `v`:
`0` (and `null`) are falsy, so they produce `null`. -/
def jsOrNullQ (v : Option ℚ) : Option ℚ :=
  match v with
  | some x => if x = 0 then none else some x
  | none => none

/-- JS `v || 0` applied to a nullable number `v`. -/
def jsOrZeroQ (v : Option ℚ) : ℚ :=
  match v with
  | some x => if x = 0 then 0 else x
  | none => 0

/-- JS `v || 'N/A'` applied to a nullable string `v` (only `''` is falsy). -/
def jsOrNA (v : Option String) : String :=
  match v with
  | some t => if t = "" then "N/A" else t
  | none => "N/A"

/-- JS whitespace as far as the callsign strings are concerned. -/
def isJsSpace (c : Char) : Bool :=
  c = ' ' || c = '\t' || c = '\n' || c = '\r'

/-- JS `String.prototype.trim`: strip leading and trailing whitespace. -/
def jsTrim (s : String) : String :=
  ⟨((s.data.dropWhile isJsSpace).reverse.dropWhile isJsSpace).reverse⟩

/-- JS `(v || '').trim() || 'N/A'` as used for the callsign in `parseStates`. -/
def callsignOf (v : Option String) : String :=
  let base := match v with
    | some t => if t = "" then "" else t
    | none => ""
  let trimmed := jsTrim base
  if trimmed = "" then "N/A" else trimmed

/-- One raw OpenSky state tuple, restricted to the positional slots the
code reads: `s[0]`=icao24, `s[1]`=callsign, `s[2]`=origin country,
`s[4]`=last contact, `s[5]`=longitude, `s[6]`=latitude, `s[7]`=barometric
altitude, `s[9]`=velocity, `s[10]`=heading, `s[13]`=geometric altitude. -/
structure RawState where
  icao24 : String := ""
  callsign : Option String := none
  origin_country : Option String := none
  last_contact : Option ℚ := none
  lon : Option ℚ := none
  lat : Option ℚ := none
  baro_altitude : Option ℚ := none
  velocity : Option ℚ := none
  heading : Option ℚ := none
  geo_altitude : Option ℚ := none
deriving DecidableEq

/-- The minimal aircraft object stored by `parseStates` in src/src/App.jsx. -/
structure Aircraft where
  id : String
  cs : String
  origin_country : String
  lat : ℚ
  lon : ℚ
  hdg : ℚ
  alt_baro : Option ℚ
  alt_geo : Option ℚ
  spd : Option ℚ
  last_contact : Option ℚ
deriving DecidableEq

/-- A Leaflet `LatLngBounds` rectangle. -/
structure LatLngBounds where
  south : ℚ
  west : ℚ
  north : ℚ
  east : ℚ
deriving DecidableEq

/-- Leaflet `bounds.contains([lat, lon])`: inclusive containment. -/
def containsB (b : LatLngBounds) (lat lon : ℚ) : Bool :=
  decide (b.south ≤ lat ∧ lat ≤ b.north ∧ b.west ≤ lon ∧ lon ≤ b.east)

/-- Containment in the bounds expanded on every side by the fixed
`BOUNDS_PADDING = 0.5` degrees (src/unnamed/part_002). -/
def inPadded (b : LatLngBounds) (lat lon : ℚ) : Bool :=
  decide (b.south - 1/2 ≤ lat ∧ lat ≤ b.north + 1/2 ∧
          b.west - 1/2 ≤ lon ∧ lon ≤ b.east + 1/2)

/-- `parseStates` from src/src/App.jsx lines 147-171: skip records whose
latitude or longitude is `null`, skip records outside `map.getBounds()`,
and build the minimal aircraft object for the rest. -/
def parseStates (b : LatLngBounds) : List RawState → List Aircraft
  | [] => []
  | s :: rest =>
    match s.lat, s.lon with
    | some lat, some lon =>
      if containsB b lat lon then
        { id := s.icao24
          cs := callsignOf s.callsign
          origin_country := jsOrNA s.origin_country
          lat := lat
          lon := lon
          hdg := jsOrZeroQ s.heading
          alt_baro := jsOrNullQ s.baro_altitude
          alt_geo := jsOrNullQ s.geo_altitude
          spd := jsOrNullQ s.velocity
          last_contact := jsOrNullQ s.last_contact } :: parseStates b rest
      else parseStates b rest
    | _, _ => parseStates b rest

/-- `MAX_IN_VIEW = Math.max(200, Math.floor(BASE_MAX / autoScaleRef.current))`
with `BASE_MAX = 3000` (src/src/App.jsx lines 219-220). -/
def maxEntities (scale : ℚ) : ℕ :=
  max 200 (Int.toNat ⌊(3000 : ℚ) / scale⌋)

/-- Integer ceiling division, `Math.ceil(a / b)` for naturals with `b > 0`. -/
def natCeilDiv (a b : ℕ) : ℕ := (a + b - 1) / b

/-- The progressive downsampling step of `fetchData` (src/src/App.jsx lines
221-225): when more than `m` records survive the viewport filter, keep
exactly the records whose index is divisible by
`factor = Math.ceil(next.length / m)`. -/
def downsample (m : ℕ) (next : List Aircraft) : List Aircraft :=
  if next.length > m then
    let factor := natCeilDiv next.length m
    ((next.enum).filter (fun p => p.1 % factor == 0)).map Prod.snd
  else next

/-- The `status` React state of src/src/App.jsx. -/
structure FetchStatus where
  loading : Bool
  error : Option String
  count : ℕ
deriving DecidableEq

/-- The mutable state touched by one `fetchData` call: the stored entity
list (`aircraftRef`), the UI status, and the short in-memory cache. -/
structure AppState where
  aircraft : List Aircraft
  status : FetchStatus
  cache : Option (List Aircraft)
deriving DecidableEq

/-- How one `fetchData` call resolves: a response was obtained (direct or
via the proxy fallback); everything failed but the cache was recent; or
everything failed with no recent cache. -/
inductive FetchOutcome
  | ok (states : List RawState)
  | failCached
  | failNoCache

/-- The state transition of one completed `fetchData` call
(src/src/App.jsx lines 197-234). On success the filtered list is
downsampled, stored wholesale and cached, and the status count is the
pre-downsampling filtered count; on failure with a recent cache the cached
list is restored; otherwise the status reports the error with count 0 and
the stored entity list is left untouched. -/
def fetchStep (b : LatLngBounds) (scale : ℚ) (st : AppState) :
    FetchOutcome → AppState
  | .ok states =>
    let next := parseStates b states
    let sampled := downsample (maxEntities scale) next
    { aircraft := sampled
      cache := some sampled
      status := { loading := false, error := none, count := next.length } }
  | .failCached =>
    match st.cache with
    | some cached =>
      { st with aircraft := cached,
                status := { loading := false, error := none, count := cached.length } }
    | none =>
      { st with status := { loading := false, error := some "Fetch failed", count := 0 } }
  | .failNoCache =>
    { st with status := { loading := false, error := some "Fetch failed", count := 0 } }

/-- The header info line of src/src/App.jsx lines 411-413: the loading
text while loading, the error banner when an error is set, and the entity
count otherwise. -/
def displayedInfo (st : FetchStatus) : String :=
  if st.loading then "Loading aircraft..."
  else
    match st.error with
    | some e => "Error: " ++ e
    | none => toString st.count ++ " aircraft in view"

/-- The adaptive performance controller's state: the bounded FPS sample
window (`fpsSamples`) and the scale multiplier (`autoScaleRef`). -/
structure PerfState where
  samples : List ℚ
  scale : ℚ
deriving DecidableEq

/-- Push the instantaneous FPS `1000 / dt` onto the sample window, then
drop the oldest sample when the window exceeds 30 entries
(src/src/App.jsx lines 334-336). -/
def pushFps (samples : List ℚ) (dt : ℚ) : List ℚ :=
  let s1 := samples ++ [1000 / dt]
  if s1.length > 30 then s1.tail else s1

/-- Arithmetic mean of the sample window (src/src/App.jsx line 337). -/
def meanOf (l : List ℚ) : ℚ := l.sum / (l.length : ℚ)

/-- One frame of the FPS autotune block (src/src/App.jsx lines 330-348):
in `auto` detail the scale is raised by ×1.25 clamped at 8 when the mean
FPS is below 22 and lowered by ×0.85 clamped at 1 when it is above 35;
in manual detail the scale is forced back to 1. -/
def onFrame (st : PerfState) (dt : ℚ) (auto : Bool) : PerfState :=
  let samples := pushFps st.samples dt
  let avg := meanOf samples
  let scale :=
    if auto then
      if avg < 22 then min 8 (st.scale * 1.25)
      else if avg > 35 then max 1 (st.scale * 0.85)
      else st.scale
    else 1
  { samples := samples, scale := scale }

/-- Run the controller from its initial state (empty window, scale 1)
over a trace of frames, each with its `dt` and whether detail was auto. -/
def runFrames (trace : List (ℚ × Bool)) : PerfState :=
  trace.foldl (fun st p => onFrame st p.1 p.2) { samples := [], scale := 1 }

/-- One ephemeral grid cell of the spatial aggregator: the rounded pixel
point of its first entity, the representative, and the occupancy count. -/
structure AggCell (α : Type) where
  x : ℤ
  y : ℤ
  rep : α
  count : ℕ
deriving DecidableEq

/-- The 50-pixel screen-space margin test of src/src/App.jsx line 273
(negated: the code `continue`s when the point is outside). -/
def inMargin (w h : ℤ) (p : ℤ × ℤ) : Bool :=
  !(p.1 < -50 || p.2 < -50 || p.1 > w + 50 || p.2 > h + 50)

/-- The cell key `floor(x / gridSize), floor(y / gridSize)` of
src/src/App.jsx line 274 (JS `Math.floor` division is floor division). -/
def cellKey (g : ℕ) (p : ℤ × ℤ) : ℤ × ℤ :=
  (Int.fdiv p.1 (g : ℤ), Int.fdiv p.2 (g : ℤ))

/-- Lookup in the insertion-ordered cell map. -/
def findCell (k : ℤ × ℤ) : List ((ℤ × ℤ) × AggCell α) → Option (AggCell α)
  | [] => none
  | (k', c) :: rest => if k' = k then some c else findCell k rest

/-- `cell.count++` on the cell stored under key `k`. -/
def bumpCell (k : ℤ × ℤ) :
    List ((ℤ × ℤ) × AggCell α) → List ((ℤ × ℤ) × AggCell α)
  | [] => []
  | (k', c) :: rest =>
    if k' = k then (k', { c with count := c.count + 1 }) :: rest
    else (k', c) :: bumpCell k rest

/-- One iteration of the aggregation loop (src/src/App.jsx lines 267-278):
skip points outside the margin; otherwise create the cell with count 0 on
first sight (the point and entity becoming `x`,`y`,`rep`) and increment
its count. `proj` yields the rounded layer-point pixel coordinates. -/
def aggStep (proj : α → ℤ × ℤ) (w h : ℤ) (g : ℕ)
    (cells : List ((ℤ × ℤ) × AggCell α)) (a : α) :
    List ((ℤ × ℤ) × AggCell α) :=
  let p := proj a
  if inMargin w h p then
    let k := cellKey g p
    let cells1 :=
      match findCell k cells with
      | some _ => cells
      | none => cells ++ [(k, { x := p.1, y := p.2, rep := a, count := 0 })]
    bumpCell k cells1
  else cells

/-- The whole per-frame aggregation pass over the stored entity list. -/
def aggregate (proj : α → ℤ × ℤ) (w h : ℤ) (g : ℕ) (l : List α) :
    List ((ℤ × ℤ) × AggCell α) :=
  l.foldl (aggStep proj w h g) []

/-- Total occupancy over all cells. -/
def sumCounts : List ((ℤ × ℤ) × AggCell α) → ℕ
  | [] => 0
  | (_, c) :: rest => c.count + sumCounts rest

/-- Squared Euclidean pixel distance used by the click handler. -/
def sqDist (c p : ℤ × ℤ) : ℤ :=
  (p.1 - c.1) ^ 2 + (p.2 - c.2) ^ 2

/-- The scan of the click handler (src/src/App.jsx lines 372-381):
starting from `best = null, bestDist = Infinity`, keep the strictly
closer entity. -/
def scanNearest (c : ℤ × ℤ) (proj : α → ℤ × ℤ) :
    List α → Option (α × ℤ) → Option (α × ℤ)
  | [], acc => acc
  | a :: rest, acc =>
    let d := sqDist c (proj a)
    let acc' :=
      match acc with
      | none => some (a, d)
      | some (b, bd) => if d < bd then some (a, d) else some (b, bd)
    scanNearest c proj rest acc'

/-- The hit-tester (src/src/App.jsx lines 368-389): the nearest entity is
returned when its squared distance is at most 400 (20 px squared). -/
def findNearest (c : ℤ × ℤ) (proj : α → ℤ × ℤ) (l : List α) : Option α :=
  match scanNearest c proj l none with
  | some (a, d) => if d ≤ 400 then some a else none
  | none => none

/-- The detail setting. -/
inductive DetailLevel
  | auto
  | high
  | low
deriving DecidableEq

/-- The aggregation grid size policy (src/src/App.jsx lines 261-264):
`max(8, floor(48 / max(1, zoom)))`, doubled under low detail, halved with
floor 4 under high detail. -/
def gridSize (zoom : ℕ) (d : DetailLevel) : ℕ :=
  let base := max 8 (48 / max 1 zoom)
  match d with
  | .auto => base
  | .low => base * 2
  | .high => max 4 (base / 2)

/-- The processed aircraft object of the part_002 prototype. -/
structure ProcAircraft where
  id : String
  pos : ℚ × ℚ
  rot : ℚ
  alt : Option ℚ
  spd : Option ℚ
  cs : Option String
deriving DecidableEq

/-- The viewport filter of `fetchAircraftData` in src/unnamed/part_002
lines 64-110: keep records with non-null position inside the bounds
expanded by `BOUNDS_PADDING = 0.5` degrees on every side. -/
def processStates (b : LatLngBounds) : List RawState → List ProcAircraft
  | [] => []
  | s :: rest =>
    match s.lat, s.lon with
    | some lat, some lon =>
      if inPadded b lat lon then
        { id := s.icao24
          pos := (lat, lon)
          rot := jsOrZeroQ s.heading
          alt := s.baro_altitude
          spd := s.velocity
          cs := s.callsign.map jsTrim } :: processStates b rest
      else processStates b rest
    | _, _ => processStates b rest

/-- A concrete viewport used by the concrete-input theorems below. -/
def b0 : LatLngBounds := { south := 0, west := 0, north := 10, east := 10 }

/-- A concrete raw record inside `b0`. -/
def sIn : RawState := { icao24 := "abc123", lat := some 5, lon := some 5 }

/-- The aircraft `parseStates` builds from `sIn`. -/
def aIn : Aircraft :=
  { id := "abc123", cs := "N/A", origin_country := "N/A", lat := 5, lon := 5
    hdg := 0, alt_baro := none, alt_geo := none, spd := none, last_contact := none }

/-- The empty initial app state. -/
def initState : AppState :=
  { aircraft := [], status := { loading := false, error := none, count := 0 }, cache := none }

/-- A concrete raw record whose position is outside `b0` but inside the
0.5°-padded rectangle around `b0` (latitude 10.25 against north = 10). -/
def sCex : RawState := { icao24 := "cex", lat := some (41/4), lon := some 5 }

/-! ### Helper lemmas -/

lemma jsOrNullQ_eq_none (v : Option ℚ) :
    jsOrNullQ v = none ↔ v = none ∨ v = some 0 := by
  cases v with
  | none => simp [jsOrNullQ]
  | some x =>
    by_cases hx : x = 0 <;> simp [jsOrNullQ, hx]

lemma downsample_of_le {m : ℕ} {l : List Aircraft} (h : l.length ≤ m) :
    downsample m l = l := by
  unfold downsample
  rw [if_neg]
  omega

lemma downsample_of_gt {m : ℕ} {l : List Aircraft} (h : m < l.length) :
    downsample m l
      = ((l.enum).filter (fun p => p.1 % (natCeilDiv l.length m) == 0)).map Prod.snd := by
  unfold downsample
  rw [if_pos h]

lemma natCeilDiv_succ (k : ℕ) (hk : 0 < k) (n : ℕ) :
    natCeilDiv (n + 1) k = natCeilDiv n k + (if n % k = 0 then 1 else 0) := by
  have hr : n % k < k := Nat.mod_lt _ hk
  have hdm := Nat.div_add_mod n k
  obtain ⟨q, r, hr2, rfl⟩ : ∃ q r, r < k ∧ n = k * q + r :=
    ⟨n / k, n % k, hr, by omega⟩
  unfold natCeilDiv
  have e1 : k * q + r + 1 + k - 1 = k * (q + 1) + r := by
    have : k * (q + 1) = k * q + k := by ring
    omega
  rw [e1, Nat.mul_add_div hk, Nat.mul_add_mod, Nat.mod_eq_of_lt hr2]
  by_cases h0 : r = 0
  · subst h0
    have e2 : k * q + 0 + k - 1 = k * q + (k - 1) := by omega
    rw [e2, Nat.mul_add_div hk, Nat.div_eq_of_lt (by omega : k - 1 < k),
        Nat.div_eq_of_lt (by omega : 0 < k)]
    simp
  · have e3 : k * q + r + k - 1 = k * (q + 1) + (r - 1) := by
      have : k * (q + 1) = k * q + k := by ring
      omega
    rw [e3, Nat.mul_add_div hk, Nat.div_eq_of_lt (by omega : r - 1 < k),
        Nat.div_eq_of_lt (by omega : r < k)]
    simp [h0]

lemma count_range_multiples (k : ℕ) (hk : 0 < k) :
    ∀ n : ℕ, ((List.range n).filter (fun i => i % k == 0)).length = natCeilDiv n k := by
  intro n
  induction n with
  | zero =>
    simp [natCeilDiv, Nat.div_eq_of_lt (show k - 1 < k by omega)]
  | succ n ih =>
    rw [List.range_succ, List.filter_append, List.length_append, ih,
        natCeilDiv_succ k hk n]
    by_cases h : n % k = 0 <;> simp [h]

lemma enum_filter_mod_len (k : ℕ) :
    ∀ (l : List Aircraft) (s : ℕ),
      ((List.enumFrom s l).filter (fun p => p.1 % k == 0)).length
        = ((List.range' s l.length).filter (fun i => i % k == 0)).length := by
  intro l
  induction l with
  | nil => intro s; simp
  | cons a tl ih =>
    intro s
    show ((( s, a) :: List.enumFrom (s + 1) tl).filter (fun p => p.1 % k == 0)).length
        = ((List.range' s (tl.length + 1)).filter (fun i => i % k == 0)).length
    rw [List.range'_succ]
    cases hb : (s % k == 0) <;> simp [List.filter, hb, ih (s + 1)]

lemma sampled_length (k : ℕ) (hk : 0 < k) (l : List Aircraft) :
    (((l.enum).filter (fun p => p.1 % k == 0)).map Prod.snd).length
      = natCeilDiv l.length k := by
  rw [List.length_map]
  have h1 : l.enum = List.enumFrom 0 l := rfl
  rw [h1, enum_filter_mod_len k l 0]
  have h2 : List.range' 0 l.length = List.range l.length :=
    (List.range_eq_range' l.length).symm
  rw [h2]
  exact count_range_multiples k hk l.length

lemma two_le_factor {n m : ℕ} (hm : 0 < m) (hmn : m < n) :
    2 ≤ natCeilDiv n m := by
  unfold natCeilDiv
  rw [Nat.le_div_iff_mul_le hm]
  omega

lemma ceil_le_of_lt {n m : ℕ} (hm : 0 < m) (hmn : m < n) :
    natCeilDiv n (natCeilDiv n m) ≤ m := by
  have hk2 := two_le_factor hm hmn
  set K := natCeilDiv n m with hK
  have hk0 : 0 < K := by omega
  have hkm : n ≤ K * m := by
    rw [hK]
    unfold natCeilDiv
    have h1 := Nat.div_add_mod (n + m - 1) m
    have h2 : (n + m - 1) % m < m := Nat.mod_lt _ hm
    rw [Nat.mul_comm]
    omega
  show natCeilDiv n K ≤ m
  unfold natCeilDiv
  rw [Nat.div_le_iff_le_mul_add_pred hk0]
  omega

lemma ceil_lt_self {n k : ℕ} (hn : 2 ≤ n) (hk : 2 ≤ k) : natCeilDiv n k < n := by
  unfold natCeilDiv
  rw [Nat.div_lt_iff_lt_mul (by omega : 0 < k)]
  obtain ⟨a, rfl⟩ : ∃ a, n = a + 2 := ⟨n - 2, by omega⟩
  obtain ⟨b, rfl⟩ : ∃ b, k = b + 2 := ⟨k - 2, by omega⟩
  have h : (a + 2) * (b + 2) = a * b + 2 * a + 2 * b + 4 := by ring
  omega

lemma le_maxEntities (scale : ℚ) : 200 ≤ maxEntities scale :=
  le_max_left _ _

lemma maxEntities_15 : maxEntities 15 = 200 := by
  unfold maxEntities
  have h : ⌊(3000 : ℚ) / 15⌋ = 200 := by norm_num
  rw [h]
  rfl

lemma parseStates_sIn_cons (l : List RawState) :
    parseStates b0 (sIn :: l) = aIn :: parseStates b0 l := rfl

lemma parseStates_replicate (n : ℕ) :
    parseStates b0 (List.replicate n sIn) = List.replicate n aIn := by
  induction n with
  | zero => rfl
  | succ n ih =>
    rw [List.replicate_succ, List.replicate_succ, parseStates_sIn_cons, ih]

/-! ### Claims -/

/-- C1: for every successful fetch, when the filtered count `n` exceeds
`maxEntities = max(200, floor(3000 / scale))` the stored entity list is
exactly the filtered records whose index is divisible by
`k = ceil(n / maxEntities)`, in their original order, with length
`ceil(n / k) ≤ maxEntities`; when `n ≤ maxEntities` the stored list is the
filtered list unchanged. -/
theorem fetch_downsample_spec (b : LatLngBounds) (scale : ℚ) (st : AppState)
    (states : List RawState) :
    ((parseStates b states).length ≤ maxEntities scale →
      (fetchStep b scale st (.ok states)).aircraft = parseStates b states)
    ∧ (maxEntities scale < (parseStates b states).length →
      (fetchStep b scale st (.ok states)).aircraft
          = (((parseStates b states).enum).filter
              (fun p =>
                p.1 % (natCeilDiv (parseStates b states).length (maxEntities scale)) == 0)).map
              Prod.snd
        ∧ (fetchStep b scale st (.ok states)).aircraft.length
            = natCeilDiv (parseStates b states).length
                (natCeilDiv (parseStates b states).length (maxEntities scale))
        ∧ natCeilDiv (parseStates b states).length
            (natCeilDiv (parseStates b states).length (maxEntities scale))
            ≤ maxEntities scale) := by
  have hair : (fetchStep b scale st (.ok states)).aircraft
      = downsample (maxEntities scale) (parseStates b states) := rfl
  constructor
  · intro h
    rw [hair, downsample_of_le h]
  · intro h
    have hm : 0 < maxEntities scale :=
      lt_of_lt_of_le (by norm_num) (le_maxEntities scale)
    have hk2 := two_le_factor hm h
    refine ⟨?_, ?_, ceil_le_of_lt hm h⟩
    · rw [hair, downsample_of_gt h]
    · rw [hair, downsample_of_gt h, sampled_length _ (by omega)]

/-- Witness for C1 at a concrete input: 201 filtered records against a cap
of 200 give stride 2 and a stored list of 101 records. -/
theorem fetch_downsample_spec_witness :
    (fetchStep b0 15 initState (.ok (List.replicate 201 sIn))).aircraft.length = 101 := by
  have hlen : (parseStates b0 (List.replicate 201 sIn)).length = 201 := by
    rw [parseStates_replicate, List.length_replicate]
  have h := (fetch_downsample_spec b0 15 initState (List.replicate 201 sIn)).2
  rw [maxEntities_15, hlen] at h
  obtain ⟨-, h2, -⟩ := h (by omega)
  rw [h2]
  decide

/-- C10: after every successful fetch the status count is the filtered
count before downsampling, and whenever downsampling occurs the reported
count strictly exceeds the length of the stored entity list. -/
theorem status_count_pre_downsample (b : LatLngBounds) (scale : ℚ) (st : AppState)
    (states : List RawState) :
    (fetchStep b scale st (.ok states)).status.count = (parseStates b states).length
    ∧ (maxEntities scale < (parseStates b states).length →
        (fetchStep b scale st (.ok states)).aircraft.length
          < (fetchStep b scale st (.ok states)).status.count) := by
  constructor
  · rfl
  · intro h
    have hm : 0 < maxEntities scale :=
      lt_of_lt_of_le (by norm_num) (le_maxEntities scale)
    have hk2 := two_le_factor hm h
    have hn2 : 2 ≤ (parseStates b states).length := by
      have := le_maxEntities scale
      omega
    show (downsample (maxEntities scale) (parseStates b states)).length
        < (parseStates b states).length
    rw [downsample_of_gt h, sampled_length _ (by omega)]
    exact ceil_lt_self hn2 hk2

/-- Witness for C10 at a concrete input with downsampling: the stored list
(101 records) is strictly shorter than the reported count (201). -/
theorem status_count_pre_downsample_witness :
    (fetchStep b0 15 initState (.ok (List.replicate 201 sIn))).aircraft.length
      < (fetchStep b0 15 initState (.ok (List.replicate 201 sIn))).status.count := by
  have hlen : (parseStates b0 (List.replicate 201 sIn)).length = 201 := by
    rw [parseStates_replicate, List.length_replicate]
  have h := (status_count_pre_downsample b0 15 initState (List.replicate 201 sIn)).2
  rw [maxEntities_15, hlen] at h
  exact h (by omega)

/-- C5: a raw record with null/absent latitude or longitude is silently
dropped by the viewport filter: its presence leaves the output unchanged,
and every stored entity originates from a record with non-null position. -/
theorem null_position_excluded :
    (∀ (b : LatLngBounds) (s : RawState) (states : List RawState),
       s.lat = none ∨ s.lon = none →
       parseStates b (s :: states) = parseStates b states)
    ∧ (∀ (b : LatLngBounds) (states : List RawState) (a : Aircraft),
       a ∈ parseStates b states →
       ∃ s ∈ states, s.lat = some a.lat ∧ s.lon = some a.lon) := by
  constructor
  · intro b s states h
    rcases h with h | h
    · simp [parseStates, h]
    · rcases hl : s.lat with _ | lat <;> simp [parseStates, hl, h]
  · intro b states
    induction states with
    | nil => intro a ha; simp [parseStates] at ha
    | cons s rest ih =>
      intro a ha
      rcases hl : s.lat with _ | lat
      · simp only [parseStates, hl] at ha
        obtain ⟨s', hs', h1, h2⟩ := ih a ha
        exact ⟨s', List.mem_cons_of_mem _ hs', h1, h2⟩
      · rcases hlon : s.lon with _ | lon
        · simp only [parseStates, hl, hlon] at ha
          obtain ⟨s', hs', h1, h2⟩ := ih a ha
          exact ⟨s', List.mem_cons_of_mem _ hs', h1, h2⟩
        · by_cases hc : containsB b lat lon = true
          · simp only [parseStates, hl, hlon, hc, if_true] at ha
            rcases List.mem_cons.mp ha with rfl | ha'
            · exact ⟨s, List.mem_cons_self _ _, hl, hlon⟩
            · obtain ⟨s', hs', h1, h2⟩ := ih a ha'
              exact ⟨s', List.mem_cons_of_mem _ hs', h1, h2⟩
          · simp only [parseStates, hl, hlon, hc, if_false, Bool.false_eq_true] at ha
            obtain ⟨s', hs', h1, h2⟩ := ih a ha
            exact ⟨s', List.mem_cons_of_mem _ hs', h1, h2⟩

/-- Witness for C5: a record with null latitude is dropped, and the single
stored entity of a one-record snapshot comes from that record. -/
theorem null_position_excluded_witness :
    parseStates b0 [{ icao24 := "x" }, sIn] = parseStates b0 [sIn] :=
  null_position_excluded.1 b0 { icao24 := "x" } [sIn] (Or.inl rfl)

/-- C8: for every zoom level the map can be at (zoom is at least 1 there,
the map's minimum being 2), the aggregation grid size is
`max(8, floor(48/zoom))` under auto detail, that base doubled under low
detail, and `max(4, floor(base/2))` under high detail. -/
theorem grid_size_policy (zoom : ℕ) (hz : 1 ≤ zoom) :
    gridSize zoom .auto = max 8 (48 / zoom)
    ∧ gridSize zoom .low = (max 8 (48 / zoom)) * 2
    ∧ gridSize zoom .high = max 4 ((max 8 (48 / zoom)) / 2) := by
  have h : max 1 zoom = zoom := Nat.max_eq_right hz
  refine ⟨?_, ?_, ?_⟩ <;> simp [gridSize, h]

/-- Witness for C8 at zoom level 3. -/
theorem grid_size_policy_witness :
    gridSize 3 .auto = max 8 (48 / 3)
    ∧ gridSize 3 .low = (max 8 (48 / 3)) * 2
    ∧ gridSize 3 .high = max 4 ((max 8 (48 / 3)) / 2) :=
  grid_size_policy 3 (by omega)

lemma pushFps_length {s : List ℚ} (h : s.length ≤ 30) (dt : ℚ) :
    (pushFps s dt).length ≤ 30 := by
  simp only [pushFps]
  split
  · simp [List.length_tail]
    exact h
  · next h2 =>
    simp only [List.length_append, List.length_singleton] at h2 ⊢
    omega

lemma onFrame_bounds {st : PerfState} (h1 : 1 ≤ st.scale) (h2 : st.scale ≤ 8)
    (dt : ℚ) (auto : Bool) :
    1 ≤ (onFrame st dt auto).scale ∧ (onFrame st dt auto).scale ≤ 8 := by
  simp only [onFrame]
  cases auto with
  | false => norm_num
  | true =>
    by_cases hlt : meanOf (pushFps st.samples dt) < 22
    · simp only [hlt, if_true, if_pos]
      constructor
      · exact le_min (by norm_num) (by nlinarith)
      · simp [min_le_left]
    · by_cases hgt : meanOf (pushFps st.samples dt) > 35
      · simp only [hlt, hgt, if_false, if_true, if_pos, if_neg, not_false_iff]
        constructor
        · simp [le_max_left]
        · exact max_le (by norm_num) (by nlinarith)
      · simp [hlt, hgt]
        exact ⟨h1, h2⟩

lemma runFrames_inv_aux :
    ∀ (L : List (ℚ × Bool)) (st : PerfState),
      1 ≤ st.scale ∧ st.scale ≤ 8 ∧ st.samples.length ≤ 30 →
      1 ≤ (L.foldl (fun st p => onFrame st p.1 p.2) st).scale
      ∧ (L.foldl (fun st p => onFrame st p.1 p.2) st).scale ≤ 8
      ∧ (L.foldl (fun st p => onFrame st p.1 p.2) st).samples.length ≤ 30 := by
  intro L
  induction L with
  | nil => intro st h; simpa using h
  | cons p tl ih =>
    intro st h
    rw [List.foldl_cons]
    apply ih
    obtain ⟨h1, h2, h3⟩ := h
    obtain ⟨g1, g2⟩ := onFrame_bounds h1 h2 p.1 p.2
    refine ⟨g1, g2, ?_⟩
    show (pushFps st.samples p.1).length ≤ 30
    exact pushFps_length h3 p.1

/-- C3: the scale multiplier never leaves `[1, 8]` along any trace of
frames starting from 1, and the sample window never exceeds 30 samples;
on each auto-mode frame the scale is multiplied by 1.25 clamped at 8 when
the mean FPS of the updated window is below 22, multiplied by 0.85 clamped
at 1 when it is above 35, and left unchanged in the `[22, 35]` dead zone;
on a manual-mode frame it is forced to 1. -/
theorem perf_scale_invariant :
    (∀ trace : List (ℚ × Bool),
       1 ≤ (runFrames trace).scale ∧ (runFrames trace).scale ≤ 8
       ∧ (runFrames trace).samples.length ≤ 30)
    ∧ (∀ (st : PerfState) (dt : ℚ),
       (onFrame st dt true).scale =
         (if meanOf (pushFps st.samples dt) < 22 then min 8 (st.scale * 1.25)
          else if meanOf (pushFps st.samples dt) > 35 then max 1 (st.scale * 0.85)
          else st.scale))
    ∧ (∀ (st : PerfState) (dt : ℚ), (onFrame st dt false).scale = 1) := by
  refine ⟨?_, ?_, ?_⟩
  · intro trace
    exact runFrames_inv_aux trace _ ⟨by norm_num, by norm_num, by simp⟩
  · intro st dt
    rfl
  · intro st dt
    rfl

/-- Counterexample to C6: after a successful fetch reporting count 1, a
total fetch failure leaves the stored entity list unchanged but resets the
status count to 0 (not the last filtered count) and the UI shows the error
banner instead of any count — so the displayed count does not reflect the
last successfully filtered set even though data had been received. -/
theorem fetch_failure_count_cex :
    (fetchStep b0 1 (fetchStep b0 1 initState (.ok [sIn])) .failNoCache).aircraft
        = (fetchStep b0 1 initState (.ok [sIn])).aircraft
    ∧ (fetchStep b0 1 initState (.ok [sIn])).status.count = 1
    ∧ (fetchStep b0 1 (fetchStep b0 1 initState (.ok [sIn])) .failNoCache).status.count = 0
    ∧ displayedInfo
        (fetchStep b0 1 (fetchStep b0 1 initState (.ok [sIn])) .failNoCache).status
        = "Error: Fetch failed" :=
  ⟨rfl, rfl, rfl, rfl⟩

/-- C6 as amended: on a total fetch failure (retries and proxy exhausted,
no recent cache) the stored entity list is left unchanged — the last good
list keeps being drawn — while the status is set to the error with count
reset to 0, and the UI displays the error banner instead of any count; on
a failure with a recent cache the cached (already downsampled) list is
restored and its length reported. -/
theorem fetch_failure_state :
    (∀ (b : LatLngBounds) (scale : ℚ) (st : AppState),
       (fetchStep b scale st .failNoCache).aircraft = st.aircraft
       ∧ (fetchStep b scale st .failNoCache).status
           = { loading := false, error := some "Fetch failed", count := 0 }
       ∧ displayedInfo (fetchStep b scale st .failNoCache).status
           = "Error: Fetch failed")
    ∧ (∀ (b : LatLngBounds) (scale : ℚ) (ac : List Aircraft) (stt : FetchStatus)
         (c : List Aircraft),
       (fetchStep b scale { aircraft := ac, status := stt, cache := some c }
           .failCached).aircraft = c
       ∧ (fetchStep b scale { aircraft := ac, status := stt, cache := some c }
           .failCached).status.count = c.length) := by
  refine ⟨fun b scale st => ⟨rfl, rfl, rfl⟩, fun b scale ac stt c => ⟨rfl, rfl⟩⟩

lemma contains_inPadded {b : LatLngBounds} {lat lon : ℚ}
    (h : containsB b lat lon = true) : inPadded b lat lon = true := by
  simp only [containsB, decide_eq_true_eq] at h
  simp only [inPadded, decide_eq_true_eq]
  obtain ⟨h1, h2, h3, h4⟩ := h
  refine ⟨by linarith, by linarith, by linarith, by linarith⟩

lemma mem_parseStates {b : LatLngBounds} {states : List RawState} {a : Aircraft}
    (h : a ∈ parseStates b states) : containsB b a.lat a.lon = true := by
  induction states with
  | nil => simp [parseStates] at h
  | cons s rest ih =>
    rcases hl : s.lat with _ | lat
    · simp only [parseStates, hl] at h
      exact ih h
    · rcases hlon : s.lon with _ | lon
      · simp only [parseStates, hl, hlon] at h
        exact ih h
      · by_cases hc : containsB b lat lon = true
        · simp only [parseStates, hl, hlon, hc, if_true] at h
          rcases List.mem_cons.mp h with rfl | h'
          · exact hc
          · exact ih h'
        · simp only [parseStates, hl, hlon, hc, if_false, Bool.false_eq_true] at h
          exact ih h

lemma parseStates_mem_lift {b : LatLngBounds} {rest : List RawState}
    (s : RawState) {a : Aircraft} (h : a ∈ parseStates b rest) :
    a ∈ parseStates b (s :: rest) := by
  rcases hl : s.lat with _ | lat
  · simp only [parseStates, hl]
    exact h
  · rcases hlon : s.lon with _ | lon
    · simp only [parseStates, hl, hlon]
      exact h
    · by_cases hc : containsB b lat lon = true
      · simp only [parseStates, hl, hlon, hc, if_true]
        exact List.mem_cons_of_mem _ h
      · simp only [parseStates, hl, hlon, hc, if_false, Bool.false_eq_true]
        exact h

lemma mem_processStates {b : LatLngBounds} {states : List RawState}
    {p : ProcAircraft} (h : p ∈ processStates b states) :
    inPadded b p.pos.1 p.pos.2 = true := by
  induction states with
  | nil => simp [processStates] at h
  | cons s rest ih =>
    rcases hl : s.lat with _ | lat
    · simp only [processStates, hl] at h
      exact ih h
    · rcases hlon : s.lon with _ | lon
      · simp only [processStates, hl, hlon] at h
        exact ih h
      · by_cases hc : inPadded b lat lon = true
        · simp only [processStates, hl, hlon, hc, if_true] at h
          rcases List.mem_cons.mp h with rfl | h'
          · exact hc
          · exact ih h'
        · simp only [processStates, hl, hlon, hc, if_false, Bool.false_eq_true] at h
          exact ih h

lemma processStates_mem_lift {b : LatLngBounds} {rest : List RawState}
    (s : RawState) {p : ProcAircraft} (h : p ∈ processStates b rest) :
    p ∈ processStates b (s :: rest) := by
  rcases hl : s.lat with _ | lat
  · simp only [processStates, hl]
    exact h
  · rcases hlon : s.lon with _ | lon
    · simp only [processStates, hl, hlon]
      exact h
    · by_cases hc : inPadded b lat lon = true
      · simp only [processStates, hl, hlon, hc, if_true]
        exact List.mem_cons_of_mem _ h
      · simp only [processStates, hl, hlon, hc, if_false, Bool.false_eq_true]
        exact h

/-- Counterexample to C2: the record `sCex` has non-null position
(10.25, 5), which lies inside the 0.5°-padded rectangle around `b0`
(north = 10, so 10.25 ≤ 10.5), yet the Viewport Data Filter that feeds the
stored entity list (`parseStates`) rejects it — the stored list is empty. -/
theorem padded_admission_cex :
    sCex.lat = some (41 / 4) ∧ sCex.lon = some 5
    ∧ inPadded b0 (41 / 4) 5 = true
    ∧ parseStates b0 [sCex] = [] := by
  refine ⟨rfl, rfl, ?_, ?_⟩
  · simp only [inPadded, b0, decide_eq_true_eq]
    norm_num
  · have hc : containsB b0 (41 / 4) 5 = false := by
      simp only [containsB, b0, decide_eq_false_iff_not]
      intro h
      obtain ⟨-, h2, -, -⟩ := h
      norm_num at h2
    show parseStates b0 [sCex] = []
    rw [parseStates]
    show (if containsB b0 (41 / 4) 5 then _ else parseStates b0 []) = []
    rw [hc]
    rfl

/-- C2 as amended: the stored-list filter (`parseStates`) admits exactly
the records with non-null position inside the exact (unpadded) viewport
bounds — hence every stored entity also lies inside the 0.5°-padded
rectangle, but a record inside the padding margin and outside the exact
bounds is rejected; the 0.5° padding is applied only by the part_002
prototype's `fetchAircraftData`, whose output is exactly the records with
non-null position inside the padded rectangle. -/
theorem viewport_filter_bounds :
    (∀ (b : LatLngBounds) (states : List RawState) (a : Aircraft),
       a ∈ parseStates b states →
       containsB b a.lat a.lon = true ∧ inPadded b a.lat a.lon = true)
    ∧ (∀ (b : LatLngBounds) (s : RawState) (states : List RawState) (lat lon : ℚ),
       s ∈ states → s.lat = some lat → s.lon = some lon →
       containsB b lat lon = true →
       ∃ a ∈ parseStates b states, a.lat = lat ∧ a.lon = lon)
    ∧ (∀ (b : LatLngBounds) (states : List RawState) (p : ProcAircraft),
       p ∈ processStates b states → inPadded b p.pos.1 p.pos.2 = true)
    ∧ (∀ (b : LatLngBounds) (s : RawState) (states : List RawState) (lat lon : ℚ),
       s ∈ states → s.lat = some lat → s.lon = some lon →
       inPadded b lat lon = true →
       ∃ p ∈ processStates b states, p.pos = (lat, lon)) := by
  refine ⟨?_, ?_, ?_, ?_⟩
  · intro b states a h
    exact ⟨mem_parseStates h, contains_inPadded (mem_parseStates h)⟩
  · intro b s states lat lon hs hl hlon hc
    induction states with
    | nil => simp at hs
    | cons s0 rest ih =>
      rcases List.mem_cons.mp hs with rfl | hs'
      · simp only [parseStates, hl, hlon, hc, if_true]
        exact ⟨_, List.mem_cons_self _ _, rfl, rfl⟩
      · obtain ⟨a, ha, h1, h2⟩ := ih hs'
        exact ⟨a, parseStates_mem_lift s0 ha, h1, h2⟩
  · intro b states p h
    exact mem_processStates h
  · intro b s states lat lon hs hl hlon hc
    induction states with
    | nil => simp at hs
    | cons s0 rest ih =>
      rcases List.mem_cons.mp hs with rfl | hs'
      · simp only [processStates, hl, hlon, hc, if_true]
        exact ⟨_, List.mem_cons_self _ _, rfl⟩
      · obtain ⟨p', hp', h1⟩ := ih hs'
        exact ⟨p', processStates_mem_lift s0 hp', h1⟩

/-- Witness for the amended C2 at a concrete admitted record. -/
theorem viewport_filter_bounds_witness :
    containsB b0 aIn.lat aIn.lon = true ∧ inPadded b0 aIn.lat aIn.lon = true :=
  viewport_filter_bounds.1 b0 [sIn] aIn
    (by rw [parseStates_sIn_cons]; exact List.mem_cons_self _ _)

/-- C9: for every admitted record, a falsy telemetry value is conflated
with absence — a barometric altitude, geometric altitude, ground speed or
last-contact timestamp equal to 0 is stored as `null` (exactly as a
missing one is, so the two are indistinguishable in the stored entity),
an empty or whitespace-only callsign is stored as the literal `'N/A'`,
and a heading of 0 (or a missing heading) is stored as 0. -/
theorem falsy_telemetry_conflation (b : LatLngBounds) (s : RawState) (lat lon : ℚ)
    (hl : s.lat = some lat) (hlon : s.lon = some lon)
    (hc : containsB b lat lon = true) :
    ∃ a : Aircraft, parseStates b [s] = [a]
      ∧ (a.alt_baro = none ↔ s.baro_altitude = none ∨ s.baro_altitude = some 0)
      ∧ (a.alt_geo = none ↔ s.geo_altitude = none ∨ s.geo_altitude = some 0)
      ∧ (a.spd = none ↔ s.velocity = none ∨ s.velocity = some 0)
      ∧ (a.last_contact = none ↔ s.last_contact = none ∨ s.last_contact = some 0)
      ∧ ((s.callsign = none ∨ ∃ t, s.callsign = some t ∧ jsTrim t = "") → a.cs = "N/A")
      ∧ (s.heading = some 0 → a.hdg = 0)
      ∧ (s.heading = none → a.hdg = 0) := by
  refine ⟨{ id := s.icao24, cs := callsignOf s.callsign,
            origin_country := jsOrNA s.origin_country, lat := lat, lon := lon,
            hdg := jsOrZeroQ s.heading, alt_baro := jsOrNullQ s.baro_altitude,
            alt_geo := jsOrNullQ s.geo_altitude, spd := jsOrNullQ s.velocity,
            last_contact := jsOrNullQ s.last_contact },
          ?_, jsOrNullQ_eq_none _, jsOrNullQ_eq_none _, jsOrNullQ_eq_none _,
          jsOrNullQ_eq_none _, ?_, ?_, ?_⟩
  · simp only [parseStates, hl, hlon, hc, if_true]
  · intro h
    show callsignOf s.callsign = "N/A"
    rcases h with h | ⟨t, ht, htr⟩
    · rw [h]
      rfl
    · rw [ht]
      by_cases h0 : t = ""
      · subst h0
        rfl
      · simp [callsignOf, h0, htr]
  · intro h
    show jsOrZeroQ s.heading = 0
    rw [h]
    rfl
  · intro h
    show jsOrZeroQ s.heading = 0
    rw [h]
    rfl

/-- Witness for C9: a record with baro altitude 0, speed 0, last contact
0, geo altitude 0, a whitespace-only callsign and heading 0 is stored with
null telemetry, callsign `'N/A'` and heading 0. -/
theorem falsy_telemetry_conflation_witness :
    (parseStates b0 [{ icao24 := "z", callsign := some " ", lat := some 5, lon := some 5, baro_altitude := some 0, velocity := some 0, geo_altitude := some 0, last_contact := some 0, heading := some 0 }]).map (fun a => (a.alt_baro, a.cs, a.hdg)) = [(none, "N/A", 0)] := by
  obtain ⟨a, hEq, hB, -, -, -, hCs, hH0, -⟩ :=
    falsy_telemetry_conflation b0 { icao24 := "z", callsign := some " ", lat := some 5, lon := some 5, baro_altitude := some 0, velocity := some 0, geo_altitude := some 0, last_contact := some 0, heading := some 0 } 5 5 rfl rfl (by decide)
  rw [hEq]
  simp only [List.map]
  rw [hB.mpr (Or.inr rfl), hCs (Or.inr ⟨" ", rfl, by decide⟩), hH0 rfl]

lemma scanNearest_spec {α : Type} (c : ℤ × ℤ) (proj : α → ℤ × ℤ) :
    ∀ (l : List α) (acc : Option (α × ℤ)),
      (∀ b bd, acc = some (b, bd) → bd = sqDist c (proj b)) →
      match scanNearest c proj l acc with
      | none => l = [] ∧ acc = none
      | some (e, d) =>
          d = sqDist c (proj e)
          ∧ (∀ a ∈ l, d ≤ sqDist c (proj a))
          ∧ (e ∈ l ∨ acc = some (e, d))
          ∧ (∀ b bd, acc = some (b, bd) → d ≤ bd) := by
  intro l
  induction l with
  | nil =>
    intro acc hacc
    simp only [scanNearest]
    cases acc with
    | none => exact ⟨trivial, rfl⟩
    | some p =>
      obtain ⟨b, bd⟩ := p
      refine ⟨hacc b bd rfl, ?_, Or.inr rfl, ?_⟩
      · intro x hx
        simp at hx
      · intro b' bd' h
        simp only [Option.some.injEq, Prod.mk.injEq] at h
        obtain ⟨-, rfl⟩ := h
        exact le_refl _
  | cons a tl ih =>
    intro acc hacc
    cases acc with
    | none =>
      have hwf : ∀ b bd, (some (a, sqDist c (proj a)) : Option (α × ℤ)) = some (b, bd)
          → bd = sqDist c (proj b) := by
        intro b bd h
        simp only [Option.some.injEq, Prod.mk.injEq] at h
        obtain ⟨rfl, rfl⟩ := h
        rfl
      have h := ih (some (a, sqDist c (proj a))) hwf
      show match scanNearest c proj tl (some (a, sqDist c (proj a))) with
        | none => a :: tl = [] ∧ (none : Option (α × ℤ)) = none
        | some (e, d) =>
            d = sqDist c (proj e)
            ∧ (∀ x ∈ a :: tl, d ≤ sqDist c (proj x))
            ∧ (e ∈ a :: tl ∨ (none : Option (α × ℤ)) = some (e, d))
            ∧ (∀ b bd, (none : Option (α × ℤ)) = some (b, bd) → d ≤ bd)
      cases hscan : scanNearest c proj tl (some (a, sqDist c (proj a))) with
      | none =>
        rw [hscan] at h
        exact absurd h.2 (by simp)
      | some p =>
        obtain ⟨e, d⟩ := p
        rw [hscan] at h
        obtain ⟨h1, h2, h3, h4⟩ := h
        refine ⟨h1, ?_, ?_, ?_⟩
        · intro x hx
          rcases List.mem_cons.mp hx with rfl | hx'
          · exact h4 x (sqDist c (proj x)) rfl
          · exact h2 x hx'
        · left
          rcases h3 with he | he
          · exact List.mem_cons_of_mem _ he
          · simp only [Option.some.injEq, Prod.mk.injEq] at he
            obtain ⟨rfl, -⟩ := he
            exact List.mem_cons_self _ _
        · intro b bd hbd
          exact Option.noConfusion hbd
    | some p =>
      obtain ⟨b0, bd0⟩ := p
      have hwf0 : bd0 = sqDist c (proj b0) := hacc b0 bd0 rfl
      by_cases hd : sqDist c (proj a) < bd0
      · have hwf : ∀ b bd, (some (a, sqDist c (proj a)) : Option (α × ℤ)) = some (b, bd)
            → bd = sqDist c (proj b) := by
          intro b bd h
          simp only [Option.some.injEq, Prod.mk.injEq] at h
          obtain ⟨rfl, rfl⟩ := h
          rfl
        have h := ih (some (a, sqDist c (proj a))) hwf
        show match scanNearest c proj tl
            (if sqDist c (proj a) < bd0 then some (a, sqDist c (proj a)) else some (b0, bd0)) with
          | none => a :: tl = [] ∧ (some (b0, bd0) : Option (α × ℤ)) = none
          | some (e, d) =>
              d = sqDist c (proj e)
              ∧ (∀ x ∈ a :: tl, d ≤ sqDist c (proj x))
              ∧ (e ∈ a :: tl ∨ (some (b0, bd0) : Option (α × ℤ)) = some (e, d))
              ∧ (∀ b bd, (some (b0, bd0) : Option (α × ℤ)) = some (b, bd) → d ≤ bd)
        rw [if_pos hd]
        cases hscan : scanNearest c proj tl (some (a, sqDist c (proj a))) with
        | none =>
          rw [hscan] at h
          exact absurd h.2 (by simp)
        | some p =>
          obtain ⟨e, d⟩ := p
          rw [hscan] at h
          obtain ⟨h1, h2, h3, h4⟩ := h
          have hda : d ≤ sqDist c (proj a) := h4 a (sqDist c (proj a)) rfl
          refine ⟨h1, ?_, ?_, ?_⟩
          · intro x hx
            rcases List.mem_cons.mp hx with rfl | hx'
            · exact hda
            · exact h2 x hx'
          · left
            rcases h3 with he | he
            · exact List.mem_cons_of_mem _ he
            · simp only [Option.some.injEq, Prod.mk.injEq] at he
              obtain ⟨rfl, -⟩ := he
              exact List.mem_cons_self _ _
          · intro b bd hbd
            simp only [Option.some.injEq, Prod.mk.injEq] at hbd
            obtain ⟨-, rfl⟩ := hbd
            exact le_of_lt (lt_of_le_of_lt hda hd)
      · have hwf : ∀ b bd, (some (b0, bd0) : Option (α × ℤ)) = some (b, bd)
            → bd = sqDist c (proj b) := by
          intro b bd h
          simp only [Option.some.injEq, Prod.mk.injEq] at h
          obtain ⟨rfl, rfl⟩ := h
          exact hwf0
        have h := ih (some (b0, bd0)) hwf
        show match scanNearest c proj tl
            (if sqDist c (proj a) < bd0 then some (a, sqDist c (proj a)) else some (b0, bd0)) with
          | none => a :: tl = [] ∧ (some (b0, bd0) : Option (α × ℤ)) = none
          | some (e, d) =>
              d = sqDist c (proj e)
              ∧ (∀ x ∈ a :: tl, d ≤ sqDist c (proj x))
              ∧ (e ∈ a :: tl ∨ (some (b0, bd0) : Option (α × ℤ)) = some (e, d))
              ∧ (∀ b bd, (some (b0, bd0) : Option (α × ℤ)) = some (b, bd) → d ≤ bd)
        rw [if_neg hd]
        cases hscan : scanNearest c proj tl (some (b0, bd0)) with
        | none =>
          rw [hscan] at h
          exact absurd h.2 (by simp)
        | some p =>
          obtain ⟨e, d⟩ := p
          rw [hscan] at h
          obtain ⟨h1, h2, h3, h4⟩ := h
          have hdb : d ≤ bd0 := h4 b0 bd0 rfl
          refine ⟨h1, ?_, ?_, h4⟩
          · intro x hx
            rcases List.mem_cons.mp hx with rfl | hx'
            · exact le_trans hdb (le_of_not_lt hd)
            · exact h2 x hx'
          · rcases h3 with he | he
            · exact Or.inl (List.mem_cons_of_mem _ he)
            · exact Or.inr he

/-- C7: the hit-tester returns an entity minimizing the squared Euclidean
pixel distance to the click point when that minimum is at most 400 (the
square of the 20-pixel threshold) and `none` otherwise; in particular, for
entities at pixel distances 5, 30 and 50 from the click it returns only
the entity at distance 5. -/
theorem hit_tester_spec :
    (∀ (α : Type) (proj : α → ℤ × ℤ) (l : List α) (c : ℤ × ℤ),
       match findNearest c proj l with
       | some e => e ∈ l ∧ sqDist c (proj e) ≤ 400
           ∧ ∀ a ∈ l, sqDist c (proj e) ≤ sqDist c (proj a)
       | none => ∀ a ∈ l, 400 < sqDist c (proj a))
    ∧ findNearest (0, 0) id [((3 : ℤ), (4 : ℤ)), (18, 24), (30, 40)] = some (3, 4) := by
  constructor
  · intro α proj l c
    have h := scanNearest_spec c proj l none
      (by intro b bd hh; exact Option.noConfusion hh)
    cases hscan : scanNearest c proj l none with
    | none =>
      rw [hscan] at h
      obtain ⟨hl, -⟩ := h
      simp only [findNearest, hscan]
      subst hl
      intro a ha
      simp at ha
    | some p =>
      obtain ⟨e, d⟩ := p
      rw [hscan] at h
      obtain ⟨h1, h2, h3, -⟩ := h
      have he : e ∈ l := by
        rcases h3 with he | he
        · exact he
        · exact Option.noConfusion he
      simp only [findNearest, hscan]
      by_cases hth : d ≤ 400
      · rw [if_pos hth]
        exact ⟨he, by omega, fun a ha => by have := h2 a ha; omega⟩
      · rw [if_neg hth]
        intro a ha
        have := h2 a ha
        omega
  · decide

/-- Witness for C7: the entity at distance 5 is within threshold and in
the scanned list. -/
theorem hit_tester_spec_witness :
    ((3 : ℤ), (4 : ℤ)) ∈ [((3 : ℤ), (4 : ℤ)), (18, 24), (30, 40)]
    ∧ sqDist (0, 0) ((3 : ℤ), (4 : ℤ)) ≤ 400 := by
  have h := hit_tester_spec.1 (ℤ × ℤ) id [((3 : ℤ), (4 : ℤ)), (18, 24), (30, 40)] (0, 0)
  rw [hit_tester_spec.2] at h
  exact ⟨h.1, h.2.1⟩

lemma findCell_append {α : Type} (k : ℤ × ℤ)
    (cs ds : List ((ℤ × ℤ) × AggCell α)) :
    findCell k (cs ++ ds)
      = match findCell k cs with
        | some c => some c
        | none => findCell k ds := by
  induction cs with
  | nil => simp [findCell]
  | cons hd tl ih =>
    obtain ⟨k', c⟩ := hd
    by_cases h : k' = k <;> simp [findCell, h, ih]

lemma findCell_bump_eq {α : Type} (k : ℤ × ℤ) (cs : List ((ℤ × ℤ) × AggCell α)) :
    findCell k (bumpCell k cs)
      = (findCell k cs).map (fun c => { c with count := c.count + 1 }) := by
  induction cs with
  | nil => simp [findCell, bumpCell]
  | cons hd tl ih =>
    obtain ⟨k', c⟩ := hd
    by_cases h : k' = k <;> simp [findCell, bumpCell, h, ih]

lemma findCell_bump_ne {α : Type} {k k' : ℤ × ℤ} (h : k ≠ k')
    (cs : List ((ℤ × ℤ) × AggCell α)) :
    findCell k (bumpCell k' cs) = findCell k cs := by
  induction cs with
  | nil => simp [findCell, bumpCell]
  | cons hd tl ih =>
    obtain ⟨k'', c⟩ := hd
    by_cases h1 : k'' = k'
    · subst h1
      have h2 : ¬ k'' = k := fun hh => h (hh ▸ rfl)
      simp [findCell, bumpCell, h2]
    · by_cases h2 : k'' = k <;> simp [findCell, bumpCell, h1, h2, h, ih]

lemma sumCounts_append {α : Type} (cs ds : List ((ℤ × ℤ) × AggCell α)) :
    sumCounts (cs ++ ds) = sumCounts cs + sumCounts ds := by
  induction cs with
  | nil => simp [sumCounts]
  | cons hd tl ih =>
    obtain ⟨k', c⟩ := hd
    simp [sumCounts, ih]
    omega

lemma sumCounts_bump {α : Type} (k : ℤ × ℤ) (cs : List ((ℤ × ℤ) × AggCell α))
    (h : (findCell k cs).isSome) :
    sumCounts (bumpCell k cs) = sumCounts cs + 1 := by
  induction cs with
  | nil => simp [findCell] at h
  | cons hd tl ih =>
    obtain ⟨k', c⟩ := hd
    by_cases h1 : k' = k
    · simp [bumpCell, sumCounts, h1]
      omega
    · rw [findCell, if_neg h1] at h
      simp [bumpCell, sumCounts, h1, ih h]
      omega

lemma sumCounts_foldl {α : Type} (proj : α → ℤ × ℤ) (w h : ℤ) (g : ℕ) :
    ∀ (l : List α) (cells : List ((ℤ × ℤ) × AggCell α)),
      sumCounts (l.foldl (aggStep proj w h g) cells)
        = sumCounts cells + l.countP (fun a => inMargin w h (proj a)) := by
  intro l
  induction l with
  | nil =>
    intro cells
    simp
  | cons a tl ih =>
    intro cells
    rw [List.foldl_cons, ih, List.countP_cons]
    by_cases hm : inMargin w h (proj a) = true
    · cases hf : findCell (cellKey g (proj a)) cells with
      | some c =>
        have hstep : aggStep proj w h g cells a = bumpCell (cellKey g (proj a)) cells := by
          simp only [aggStep, hm, if_true, hf]
        rw [hstep, sumCounts_bump _ _ (by rw [hf]; rfl)]
        simp [hm]
        omega
      | none =>
        have hstep : aggStep proj w h g cells a
            = bumpCell (cellKey g (proj a))
                (cells ++ [(cellKey g (proj a),
                  { x := (proj a).1, y := (proj a).2, rep := a, count := 0 })]) := by
          simp only [aggStep, hm, if_true, hf]
        rw [hstep, sumCounts_bump, sumCounts_append]
        · simp [sumCounts, hm]
          omega
        · rw [findCell_append, hf]
          simp [findCell]
    · have hstep : aggStep proj w h g cells a = cells := by
        simp only [aggStep, hm, if_false, Bool.false_eq_true]
      rw [hstep]
      simp [hm]

lemma findCell_foldl {α : Type} (proj : α → ℤ × ℤ) (w h : ℤ) (g : ℕ) (k : ℤ × ℤ) :
    ∀ (l : List α) (cells : List ((ℤ × ℤ) × AggCell α)),
      findCell k (l.foldl (aggStep proj w h g) cells)
        = match findCell k cells with
          | some c => some { c with count := c.count + l.countP (fun a => inMargin w h (proj a) && (cellKey g (proj a) == k)) }
          | none =>
            match l.find? (fun a => inMargin w h (proj a) && (cellKey g (proj a) == k)) with
            | none => none
            | some a => some { x := (proj a).1, y := (proj a).2, rep := a, count := l.countP (fun a => inMargin w h (proj a) && (cellKey g (proj a) == k)) } := by
  intro l
  induction l with
  | nil =>
    intro cells
    cases hf : findCell k cells <;> simp [hf]
  | cons a tl ih =>
    intro cells
    rw [List.foldl_cons]
    by_cases hm : inMargin w h (proj a) = true
    · by_cases hk : cellKey g (proj a) = k
      · have hpred : (inMargin w h (proj a) && (cellKey g (proj a) == k)) = true := by
          simp [hm, hk]
        cases hf : findCell k cells with
        | some c =>
          have hstep : aggStep proj w h g cells a = bumpCell k cells := by
            rw [aggStep]
            simp only [hm, if_true, hk, hf]
          have hfind2 : List.find? (fun a => inMargin w h (proj a) && (cellKey g (proj a) == k)) (a :: tl) = some a :=
            List.find?_cons_of_pos _ hpred
          rw [hstep, ih, findCell_bump_eq, hf]
          simp only [Option.map, List.countP_cons, hfind2, hpred,
            hf, Option.some.injEq, AggCell.mk.injEq, if_true, eq_self_iff_true, true_and]
          omega
        | none =>
          have hstep : aggStep proj w h g cells a
              = bumpCell k (cells ++ [(k, { x := (proj a).1, y := (proj a).2, rep := a, count := 0 })]) := by
            rw [aggStep]
            simp only [hm, if_true, hk, hf]
          have hfc : findCell k (cells ++ [(k, { x := (proj a).1, y := (proj a).2, rep := a, count := 0 })])
              = some { x := (proj a).1, y := (proj a).2, rep := a, count := 0 } := by
            rw [findCell_append, hf]
            simp [findCell]
          have hfind2 : List.find? (fun a => inMargin w h (proj a) && (cellKey g (proj a) == k)) (a :: tl) = some a :=
            List.find?_cons_of_pos _ hpred
          rw [hstep, ih, findCell_bump_eq, hfc]
          simp only [Option.map, List.countP_cons, hfind2, hpred,
            hf, Option.some.injEq, AggCell.mk.injEq, if_true, eq_self_iff_true, true_and]
          omega
      · have hpred : (inMargin w h (proj a) && (cellKey g (proj a) == k)) = false := by
          simp [hk]
        have hne : k ≠ cellKey g (proj a) := fun hh => hk hh.symm
        have hfind : List.find? (fun a => inMargin w h (proj a) && (cellKey g (proj a) == k)) (a :: tl)
            = List.find? (fun a => inMargin w h (proj a) && (cellKey g (proj a) == k)) tl := by
          apply List.find?_cons_of_neg
          simp [hpred]
        cases hf0 : findCell (cellKey g (proj a)) cells with
        | some c0 =>
          have hstep : aggStep proj w h g cells a = bumpCell (cellKey g (proj a)) cells := by
            rw [aggStep]
            simp only [hm, if_true, hf0]
          rw [hstep, ih, findCell_bump_ne hne, List.countP_cons, hfind]
          simp [hpred]
        | none =>
          have hstep : aggStep proj w h g cells a
              = bumpCell (cellKey g (proj a))
                  (cells ++ [(cellKey g (proj a),
                    { x := (proj a).1, y := (proj a).2, rep := a, count := 0 })]) := by
            rw [aggStep]
            simp only [hm, if_true, hf0]
          have hfapp : findCell k (cells ++ [(cellKey g (proj a),
              { x := (proj a).1, y := (proj a).2, rep := a, count := 0 })]) = findCell k cells := by
            rw [findCell_append]
            cases hf : findCell k cells <;> simp [findCell, hk, hf]
          rw [hstep, ih, findCell_bump_ne hne, hfapp, List.countP_cons, hfind]
          simp [hpred]
    · have hstep : aggStep proj w h g cells a = cells := by
        rw [aggStep]
        simp only [hm, if_false, Bool.false_eq_true]
      have hpred : (inMargin w h (proj a) && (cellKey g (proj a) == k)) = false := by
        simp [Bool.not_eq_true] at hm
        simp [hm]
      have hfind : List.find? (fun a => inMargin w h (proj a) && (cellKey g (proj a) == k)) (a :: tl)
          = List.find? (fun a => inMargin w h (proj a) && (cellKey g (proj a) == k)) tl := by
        apply List.find?_cons_of_neg
        simp [hpred]
      rw [hstep, ih, List.countP_cons, hfind]
      simp [hpred]

/-- C4: the spatial aggregator assigns each within-margin entity to
exactly one cell: the total of all cell counts equals the number of
entities whose rounded pixel point lies within the viewport expanded by
the 50-pixel margin, each cell's representative is the first within-margin
entity encountered for its key `(floor(x/gridSize), floor(y/gridSize))`,
each cell's count is the number of within-margin entities with its key,
and entities outside the margin contribute to no cell. -/
theorem aggregate_partition :
    ∀ (α : Type) (proj : α → ℤ × ℤ) (w h : ℤ) (g : ℕ) (l : List α),
      sumCounts (aggregate proj w h g l) = l.countP (fun a => inMargin w h (proj a))
      ∧ (∀ k, (findCell k (aggregate proj w h g l)).map AggCell.rep
            = l.find? (fun a => inMargin w h (proj a) && (cellKey g (proj a) == k)))
      ∧ (∀ k c, findCell k (aggregate proj w h g l) = some c →
            c.count = l.countP (fun a => inMargin w h (proj a) && (cellKey g (proj a) == k))) := by
  intro α proj w h g l
  refine ⟨?_, ?_, ?_⟩
  · have h1 := sumCounts_foldl proj w h g l []
    unfold aggregate
    rw [h1]
    simp [sumCounts]
  · intro k
    have h1 := findCell_foldl proj w h g k l []
    unfold aggregate
    rw [h1]
    simp only [findCell]
    cases hf : l.find? (fun a => inMargin w h (proj a) && (cellKey g (proj a) == k)) with
    | none => simp
    | some a => simp
  · intro k c hc
    have h1 := findCell_foldl proj w h g k l []
    unfold aggregate at hc
    rw [h1] at hc
    simp only [findCell] at hc
    cases hf : l.find? (fun a => inMargin w h (proj a) && (cellKey g (proj a) == k)) with
    | none =>
      rw [hf] at hc
      exact absurd hc (by simp)
    | some a =>
      rw [hf] at hc
      simp only [Option.some.injEq] at hc
      rw [← hc]

/-- Witness for C4 at a concrete input: three on-screen points, two of
which share the grid cell keyed (0, 0); that cell's count is 2, the number
of within-margin entities with that key. -/
theorem aggregate_partition_witness :
    ({ x := 0, y := 0, rep := ((0 : ℤ), (0 : ℤ)), count := 2 } : AggCell (ℤ × ℤ)).count
      = List.countP (fun a => inMargin 100 100 (id a) && (cellKey 8 (id a) == ((0 : ℤ), (0 : ℤ))))
          [((0 : ℤ), (0 : ℤ)), (3, 3), (60, 60)] :=
  (aggregate_partition (ℤ × ℤ) id 100 100 8 [((0 : ℤ), (0 : ℤ)), (3, 3), (60, 60)]).2.2
    (0, 0) _ (by decide)
